import Mathlib

/-!
# Verification of the biotools-linter server core

A shallow embedding of the biotools-linter server (`server/src/api.rs`,
`server/src/db.rs`) together with proofs about its specified behaviour.

Conventions of the embedding:
* Rust `i32` / `i64` values are modelled as `Int` (no arithmetic here ever
  approaches the machine-word bounds).
* The relational store is modelled as a `List DatabaseEntry`; an SQL
  `SELECT ... LIMIT 100 OFFSET n` over it is `(·.drop n).take 100` of the
  filtered list (the queries in the source carry no ORDER BY, so the model
  fixes the store's own order, which is what a deterministic embedding of
  the result-set order has to pick).
* Code that panics (Rust `unwrap` / `expect` on a `None` or an `Err`) is
  modelled with `Option`: `none` is the panic.
* PostgreSQL `ILIKE` is modelled by `likeMatchL` over lower-cased character
  lists, including the `%` / `_` wildcards and the default backslash escape.
-/

/-- The severity enumeration of `api.rs` (`enum Severity`), with its
`repr(u8)` discriminants `Error = 1`, `LinterError = 2`,
`ReportCritical = 8`, `ReportHigh = 5`, `ReportMedium = 6`,
`ReportLow = 7`. -/
inductive Severity where
  | Error
  | LinterError
  | ReportCritical
  | ReportHigh
  | ReportMedium
  | ReportLow
  deriving DecidableEq, Repr

/-- Model of `impl From<i32> for Severity` in `api.rs`: the wire integer decoded to
the enum, with the `_ => Self::Error` fallback arm. -/
def Severity.fromInt (value : Int) : Severity :=
  if value = 2 then .LinterError
  else if value = 8 then .ReportCritical
  else if value = 5 then .ReportHigh
  else if value = 6 then .ReportMedium
  else if value = 7 then .ReportLow
  else .Error

/-- Model of `impl From<Severity> for i32` in `api.rs`.  This also equals the value
the Rust cast `severity as i32` produces, because the match arms agree with
the `repr(u8)` discriminants. -/
def Severity.toInt : Severity → Int
  | .LinterError => 2
  | .ReportCritical => 8
  | .ReportHigh => 5
  | .ReportMedium => 6
  | .ReportLow => 7
  | .Error => 1

/-- The list of wire integers that are the encoding of some enum variant. -/
def definedWireValues : List Int := [1, 2, 8, 5, 6, 7]

/-- Model of `struct DatabaseEntry` in `db.rs`: one row of the `messages` table. -/
structure DatabaseEntry where
  time : Int
  tool : String
  code : String
  location : String
  text : String
  level : Int
  deriving DecidableEq, Repr

/-- Whether some suffix of the list (the list itself included, the empty
suffix included) satisfies `f`; this is how a `%` wildcard consumes an
arbitrary prefix of the subject. -/
def anySuffix (f : List Char → Bool) : List Char → Bool
  | [] => f []
  | c :: s' => f (c :: s') || anySuffix f s'

/-- Continuation of a `_` wildcard: consume exactly one subject character,
then match the rest of the pattern. -/
def likeSkip (k : List Char → Bool) : List Char → Bool
  | [] => false
  | _ :: s' => k s'

/-- Continuation of a literal pattern character: consume one equal subject
character, then match the rest of the pattern. -/
def likeLit (c : Char) (k : List Char → Bool) : List Char → Bool
  | [] => false
  | d :: s' => (c = d) && k s'

/-- PostgreSQL `LIKE` pattern matching over character lists: `%` matches any
(possibly empty) sequence, `_` any single character, a backslash escapes the
following pattern character (the default LIKE escape character; a pattern
ending in a lone backslash matches nothing, as PostgreSQL rejects it). -/
def likeMatchL : List Char → List Char → Bool
  | [], s => s.isEmpty
  | p :: ps, s =>
    if p = '%' then
      anySuffix (likeMatchL ps) s
    else if p = '_' then
      likeSkip (likeMatchL ps) s
    else if p = '\\' then
      (match ps with
       | [] => false
       | q :: ps' => likeLit q (likeMatchL ps') s)
    else
      likeLit p (likeMatchL ps) s

/-- PostgreSQL `ILIKE`: case-insensitive `LIKE`, modelled by lower-casing
both the pattern and the subject before matching. -/
def ilikeL (pat s : List Char) : Bool :=
  likeMatchL (pat.map Char.toLower) (s.map Char.toLower)

/-- The `ILIKE` match on strings. -/
def ilike (pat s : String) : Bool :=
  ilikeL pat.toList s.toList

/-- The severity range produced at the head of `get_messages_paginated`,
`get_messages_paginated_search`, `count_messages_paginated` and
`count_messages_paginated_search` in `db.rs`: an exact severity becomes the
degenerate range `(v, v)`, an absent one becomes `(1, 7)`. -/
def severityRange : Option Severity → Int × Int
  | some s => (s.toInt, s.toInt)
  | none => (1, 7)

/-- Model of `html_escape::encode_text` on one character: `&`, `<` and `>` become
their entities, every other character is kept (this is exactly the character
set the crate's text encoder replaces). -/
def encodeTextChar (c : Char) : List Char :=
  if c = '&' then ['&', 'a', 'm', 'p', ';']
  else if c = '<' then ['&', 'l', 't', ';']
  else if c = '>' then ['&', 'g', 't', ';']
  else [c]

/-- Model of `html_escape::encode_text` over a character list. -/
def encodeTextL (s : List Char) : List Char :=
  (s.map encodeTextChar).flatten

/-- Model of `html_escape::encode_text(..).to_string()` on strings, as used for
`tool`, `code` and `location` in `From<DatabaseEntry> for Message` and for
the free-text query in `db.rs`. -/
def encode_text (s : String) : String :=
  String.mk (encodeTextL s.toList)

/-- Zero-padded decimal rendering, the behaviour of chrono's numeric
formatting items (`%Y` pads to 4 digits, `%m` `%d` `%H` `%M` to 2). -/
def padZeros (w n : Nat) : String :=
  let s := toString n
  String.mk (List.replicate (w - s.length) '0') ++ s

/-- Proleptic-Gregorian civil date from a day count since 1970-01-01
(the standard era-based algorithm, restricted to non-negative days, which is
all the embedding uses).  Returns `(year, month, day)`. -/
def civilFromDays (days : Nat) : Nat × Nat × Nat :=
  let z := days + 719468
  let era := z / 146097
  let doe := z % 146097
  let yoe := (doe - doe / 1460 + doe / 36524 - doe / 146096) / 365
  let doy := doe - (365 * yoe + yoe / 4 - yoe / 100)
  let mp := (5 * doy + 2) / 153
  let d := doy - (153 * mp + 2) / 5 + 1
  let m := if mp < 10 then mp + 3 else mp - 9
  let y := yoe + era * 400 + (if m ≤ 2 then 1 else 0)
  (y, m, d)

/-- The timestamp derivation in `From<DatabaseEntry> for Message`:
`UNIX_EPOCH + Duration::from_secs(time)` formatted as `%Y-%m-%d %H:%M` in
UTC.  The source `unwrap`s the `i64 → u64` conversion, so it panics on a
negative time; the model is only used (and only claimed) for non-negative
times, where `Int.toNat` agrees with that conversion. -/
def formatTimestamp (t : Int) : String :=
  let secs := t.toNat
  let days := secs / 86400
  let sod := secs % 86400
  let ymd := civilFromDays days
  padZeros 4 ymd.1 ++ "-" ++ padZeros 2 ymd.2.1 ++ "-" ++ padZeros 2 ymd.2.2 ++
    " " ++ padZeros 2 (sod / 3600) ++ ":" ++ padZeros 2 (sod % 3600 / 60)

/-- One character of the link body class of `LINK_REGEX` in `api.rs`:
`[a-zA-Z] | [0-9] | [$-_@.&+] | [!*(),]`, where `[$-_]` is the ASCII range
0x24–0x5F.  The regex's remaining alternative `%XX` (a percent-encoded
byte) adds nothing to the language of the repeated group, because `%` and
the hexadecimal digits are each already in this class, so the repetition
over this single-character class matches exactly the same strings. -/
def isLinkBodyChar (c : Char) : Bool :=
  ('a' ≤ c && c ≤ 'z') || ('A' ≤ c && c ≤ 'Z') || ('0' ≤ c && c ≤ '9') ||
  ('$' ≤ c && c ≤ '_') || c = '@' || c = '.' || c = '&' || c = '+' ||
  c = '!' || c = '*' || c = '(' || c = ')' || c = ','

/-- The final-character class `[^)\s']` of `LINK_REGEX`. -/
def isTailOk (c : Char) : Bool :=
  !(c = ')' || c = '\'' || c.isWhitespace)

/-- The scheme alternation `(http[s]?|ftp)://` of `LINK_REGEX`, matched at
the head of the input; returns the consumed characters and the rest. -/
def matchScheme (s : List Char) : Option (List Char × List Char) :=
  let https := "https://".toList
  let http := "http://".toList
  let ftp := "ftp://".toList
  if https.isPrefixOf s then some (https, s.drop 8)
  else if http.isPrefixOf s then some (http, s.drop 7)
  else if ftp.isPrefixOf s then some (ftp, s.drop 6)
  else none

/-- The `[^\s]*[^)\s']` part of `LINK_REGEX` (the fragment body after `#`
followed by the final character), with the greedy-then-backtrack semantics
of the regex engine: the longest non-whitespace prefix after which a
`[^)\s']` character can still be consumed wins. -/
def fragSearch : List Char → Option (List Char × List Char)
  | [] => none
  | c :: rest =>
    if !c.isWhitespace then
      match fragSearch rest with
      | some (u, r) => some (c :: u, r)
      | none => if isTailOk c then some ([c], rest) else none
    else
      if isTailOk c then some ([c], rest) else none

/-- The tail `(?:\#[^\s]*)?[^)\s']` of `LINK_REGEX`: the optional greedy
fragment group is tried first, and on failure the engine backtracks to
matching the single final character alone. -/
def linkTail (t : List Char) : Option (List Char × List Char) :=
  match t with
  | '#' :: rest =>
    (match fragSearch rest with
     | some (u, r) => some ('#' :: u, r)
     | none =>
       if isTailOk '#' then some (['#'], rest) else none)
  | c :: rest => if isTailOk c then some ([c], rest) else none
  | [] => none

/-- Backtracking over the greedy one-or-more body of `LINK_REGEX`: the body
run is consumed maximally and then shrunk from the right (one character per
step, moved back in front of the remaining input) until the link tail
matches; an empty body fails, as the group is `+`. -/
def bodyBack (sch : List Char) : List Char → List Char → Option (List Char × List Char)
  | [], _ => none
  | c :: revRest, after =>
    match linkTail after with
    | some (tl, r) => some (sch ++ (c :: revRest).reverse ++ tl, r)
    | none => bodyBack sch revRest (c :: after)

/-- A `LINK_REGEX` match anchored at the head of `s`: scheme, then the
maximal body run with right-to-left backtracking, then the tail.  Returns
the full matched characters and the rest of the input. -/
def matchLinkAt (s : List Char) : Option (List Char × List Char) :=
  match matchScheme s with
  | none => none
  | some (sch, rest) =>
    let body := rest.takeWhile isLinkBodyChar
    bodyBack sch body.reverse (rest.drop body.length)

/-- The replacement of the closure in `From<DatabaseEntry> for Message`:
`format!("<a href=\"{url}\" rel=\"nofollow\" >{url}</a>")` (note the space
the source writes between `"nofollow\" ` and `>`). -/
def wrapLink (url : List Char) : List Char :=
  "<a href=\"".toList ++ url ++ "\" rel=\"nofollow\" >".toList ++ url ++ "</a>".toList

/-- Model of `Regex::replace_all` for `LINK_REGEX`: scan left to right, at each
position emit the wrapped leftmost match and continue after it, otherwise
keep the character.  The fuel argument (instantiated with the input length,
an upper bound on the number of steps since every step consumes at least
one character) makes the recursion structural. -/
def autolinkAux : Nat → List Char → List Char
  | 0, s => s
  | _ + 1, [] => []
  | fuel + 1, c :: rest =>
    match matchLinkAt (c :: rest) with
    | some (m, r) => wrapLink m ++ autolinkAux fuel r
    | none => c :: autolinkAux fuel rest

/-- The autolink pass of `From<DatabaseEntry> for Message`:
`LINK_REGEX.replace_all(&v.text, ...)`. -/
def autolink (s : String) : String :=
  String.mk (autolinkAux s.toList.length s.toList)

/-- Model of `struct Message` in `api.rs` (the API result record). -/
structure Message where
  time : Int
  timestamp : String
  tool : String
  code : String
  text : String
  severity : Severity
  deriving DecidableEq, Repr

/-- Model of `impl From<DatabaseEntry> for Message` in `api.rs`: `tool` and `code`
are HTML-escaped, `text` is autolinked (not escaped), the timestamp is the
formatted time, and `level` is decoded through `Severity::from`.  The
source also HTML-escapes `location`, but `Message` has no `location` field,
so that value is dropped. -/
def messageFromEntry (e : DatabaseEntry) : Message :=
  { time := e.time
    timestamp := formatTimestamp e.time
    tool := encode_text e.tool
    code := encode_text e.code
    text := autolink e.text
    severity := Severity.fromInt e.level }

/-- The row predicate shared by `get_messages_paginated` and
`count_messages_paginated` in `db.rs`:
`level BETWEEN $1 AND $2 AND code ILIKE $3` with `($1, $2)` the severity
range. -/
def rowMatches (severity : Option Severity) (code : String) (e : DatabaseEntry) : Bool :=
  decide ((severityRange severity).1 ≤ e.level) &&
    decide (e.level ≤ (severityRange severity).2) &&
    ilike code e.code

/-- The `%{}%`-wrapped, HTML-escaped free-text pattern built by the search
queries in `db.rs`: `format!("%{}%", html_escape::encode_text(query))`. -/
def searchPatternL (q : List Char) : List Char :=
  '%' :: (encodeTextL q ++ ['%'])

/-- The free-text predicate of the `_search` queries in `db.rs`:
`(tool ILIKE $1 OR code ILIKE $1)` with `$1` the wrapped escaped query. -/
def searchRowMatches (q : String) (e : DatabaseEntry) : Bool :=
  ilikeL (searchPatternL q.toList) e.tool.toList ||
    ilikeL (searchPatternL q.toList) e.code.toList

/-- Model of `db::get_messages_paginated`: filter by severity range and code
pattern, `LIMIT 100 OFFSET page * 100`, convert each row to a `Message`. -/
def get_messages_paginated (db : List DatabaseEntry) (page : Int)
    (severity : Option Severity) (code : String) : List Message :=
  ((((db.filter (rowMatches severity code)).drop (page * 100).toNat).take 100).map
    messageFromEntry)

/-- Model of `db::count_messages_paginated`: `COUNT(*)` under the same predicate as
`get_messages_paginated`. -/
def count_messages_paginated (db : List DatabaseEntry)
    (severity : Option Severity) (code : String) : Int :=
  (db.filter (rowMatches severity code)).length

/-- Model of `db::get_messages_paginated_search`: the paginated fetch with the
additional free-text disjunction ANDed in. -/
def get_messages_paginated_search (db : List DatabaseEntry) (page : Int)
    (query : String) (severity : Option Severity) (code : String) : List Message :=
  ((((db.filter (fun e => searchRowMatches query e && rowMatches severity code e)).drop
      (page * 100).toNat).take 100).map messageFromEntry)

/-- Model of `db::count_messages_paginated_search`: `COUNT(*)` under the same
predicate as `get_messages_paginated_search`. -/
def count_messages_paginated_search (db : List DatabaseEntry) (query : String)
    (severity : Option Severity) (code : String) : Int :=
  (db.filter (fun e => searchRowMatches query e && rowMatches severity code e)).length

/-- Model of `db::get_messages_all`: every row, converted. -/
def get_messages_all (db : List DatabaseEntry) : List Message :=
  db.map messageFromEntry

/-- Model of `db::get_messages_all_search`: every row matching the free-text
disjunction, converted. -/
def get_messages_all_search (db : List DatabaseEntry) (query : String) : List Message :=
  (db.filter (searchRowMatches query)).map messageFromEntry

/-- Model of `struct ApiResponse` in `api.rs`. -/
structure ApiResponse where
  count : Int
  next : Option String
  previous : Option String
  results : List Message
  deriving DecidableEq, Repr

/-- Model of `serve_search_api` in `api.rs`: defaults (`page = 0`, `code = "%%"`),
the fetch/count pair chosen by the presence of the free-text query, and the
response with its `next` / `previous` cursors
(`next` iff `page * 100 + 100 < total_count`, `previous` iff `page > 0`). -/
def serve_search_api (db : List DatabaseEntry) (query : Option String)
    (pageParam : Option Int) (severity : Option Severity)
    (codeParam : Option String) : ApiResponse :=
  let page := pageParam.getD 0
  let code := codeParam.getD "%%"
  let fetched :=
    match query with
    | none =>
      (get_messages_paginated db page severity code,
       count_messages_paginated db severity code)
    | some q =>
      (get_messages_paginated_search db page q severity code,
       count_messages_paginated_search db q severity code)
  { count := fetched.2
    next :=
      if page * 100 + 100 < fetched.2 then some ("?page=" ++ toString (page + 1))
      else none
    previous :=
      if page > 0 then some ("?page=" ++ toString (page - 1))
      else none
    results := fetched.1 }

/-- The CSV header line of `download_api` in `api.rs`. -/
def csvHeader : String :=
  "time,timestamp,tool,code,severity,text\n"

/-- One CSV data line of `download_api`:
`format!("{},{},{},{},{},\"{}\"\n", time, timestamp, tool, code, severity as i32, text.replace('\n', ""))`.
The `as i32` cast reads the `repr(u8)` discriminant, which coincides with
`Severity.toInt`. -/
def csvRow (m : Message) : String :=
  toString m.time ++ "," ++ m.timestamp ++ "," ++ m.tool ++ "," ++ m.code ++ "," ++
    toString m.severity.toInt ++ ",\"" ++
    String.mk (m.text.toList.filter (fun c => !(c = '\n'))) ++ "\"\n"

/-- The `reduce(|acc, e| acc + &e)` fold of `download_api` over the
formatted rows: `none` on an empty row set (where the source `unwrap`s the
`None` and panics), otherwise the concatenation of all rows. -/
def csvData (ms : List Message) : Option String :=
  match ms.map csvRow with
  | [] => none
  | r :: rs => some (rs.foldl (· ++ ·) r)

/-- The row set of `download_api`: the search query selects between
`get_messages_all_search` and `get_messages_all`. -/
def downloadMessages (db : List DatabaseEntry) (query : Option String) : List Message :=
  match query with
  | some q => get_messages_all_search db q
  | none => get_messages_all db

/-- Model of `download_api` in `api.rs`, reduced to its response body: header plus
reduced rows; `none` models the panic of `.reduce(..).unwrap()` on an empty
row set (the source then never sends a response). -/
def download_api (db : List DatabaseEntry) (query : Option String) : Option String :=
  (csvData (downloadMessages db query)).map (fun data => csvHeader ++ data)

/-- The outcome of spawning the external analyzer, as `json_api` observes
it: a spawn failure (`Command::spawn` returned `Err`), a termination by
signal (where `status.code()` is `None`), or a normal exit with a code and
the captured standard output. -/
inductive SpawnOutcome where
  | spawnFailure
  | signalled
  | exited (code : Int) (stdout : String)
  deriving DecidableEq, Repr

/-- The exit-status classification of `json_api` in `api.rs`, as a function
of the spawn outcome; the result is `(status, body)` and `none` models a
panic.  A spawn failure panics (`.expect("Failed to start command")`), a
signal termination panics (`status.code().unwrap()`), exit code 1 returns
500 with the fixed diagnostic body, exit code 254 returns 400 with the
captured output, and every other exit code — zero or not — returns 200 with
the captured output. -/
def json_api (outcome : SpawnOutcome) : Option (Nat × String) :=
  match outcome with
  | .spawnFailure => none
  | .signalled => none
  | .exited c out =>
    if c = 1 then some (500, "\"error\": \"could not get data from linter\"")
    else some (if c = 254 then 400 else 200, out)

/-- The character class of the relint validation regex
`^[_\-.0-9a-zA-Z]*$` in `relint_api`. -/
def validChar (c : Char) : Bool :=
  c = '_' || c = '-' || c = '.' || ('0' ≤ c && c ≤ '9') ||
    ('a' ≤ c && c ≤ 'z') || ('A' ≤ c && c ≤ 'Z')

/-- The anchored regex check of `relint_api`: with both anchors and a `*`
repetition, the regex matches exactly the strings all of whose characters
are in the class (including the empty string). -/
def passesRelintRegex (s : String) : Bool :=
  s.toList.all validChar

/-- Model of Rust's `str::trim`: drop leading and trailing whitespace.
Rust trims the Unicode `White_Space` set; this model trims
`Char.isWhitespace` (space, tab, carriage return, newline), which agrees
with Rust on every ASCII input, and the claims only exercise ASCII. -/
def rustTrim (s : String) : String :=
  String.mk (((s.toList.dropWhile Char.isWhitespace).reverse.dropWhile
    Char.isWhitespace).reverse)

/-- The reserved batch flag whose presence `relint_api` rejects:
`input.contains("--lint-all")`. -/
def lintAllFlag : String :=
  "--lint-all"

/-- What `relint_api` does before waiting on the subprocess: either it
rejects the input (both the regex failure and the reserved-substring hit
return `StatusCode::INTERNAL_SERVER_ERROR` without spawning), or it spawns
`bash` with the recorded argument vector. -/
inductive RelintAdmission where
  | validationError
  | spawn (args : List String)
  deriving DecidableEq, Repr

/-- The admission part of `relint_api` in `api.rs`: trim the `tool`
parameter, check it against the anchored character-class regex, check it
does not contain `--lint-all`, and otherwise build
`Command::new("bash").arg("lint_from_server.sh").arg(input).arg("--no-color").arg("--exact")`. -/
def relint_validate (rawTool : String) : RelintAdmission :=
  let input := rustTrim rawTool
  if !passesRelintRegex input then .validationError
  else if lintAllFlag.toList <:+: input.toList then .validationError
  else .spawn ["lint_from_server.sh", input, "--no-color", "--exact"]

/-- Modelled from the spec: the In-Flight Registry of §4.2 is not part of
the sources under `src/` (the `src/main.rs` present is an older snapshot
without the `ServerState` / `app` router that `src/test.rs` uses, and
`relint_api`'s doc comment refers to rate limiting installed by that
missing router code), so the registry is modelled from the spec's words.
The registry is the process-wide map of source IP to the tool that IP is
currently relinting; every access is serialized by one lock, so a
concurrent execution is a sequence of atomic registry operations. -/
structure InFlightRegistry where
  entries : List (String × String)
  deriving DecidableEq, Repr

/-- Modelled from the spec: whether some in-flight entry is held by `ip`
("`ip` already has an entry"). -/
def ipBusy (r : InFlightRegistry) (ip : String) : Bool :=
  r.entries.any (fun e => e.1 = ip)

/-- Modelled from the spec: whether some in-flight entry targets `tool`
("some entry's value equals `tool`"). -/
def toolBusy (r : InFlightRegistry) (tool : String) : Bool :=
  r.entries.any (fun e => e.2 = tool)

/-- Modelled from the spec: §4.2 `try_acquire(ip, tool) -> bool` — under
the lock, if `ip` already has an entry, or some entry's value equals
`tool`, return `false` (reject as duplicate); otherwise insert `ip ↦ tool`
and return `true`.  Returns the decision and the updated registry. -/
def try_acquire (r : InFlightRegistry) (ip tool : String) : Bool × InFlightRegistry :=
  if ipBusy r ip || toolBusy r tool then
    (false, r)
  else
    (true, ⟨(ip, tool) :: r.entries⟩)

/-- Modelled from the spec: §4.2 `release(ip)` — under the lock, remove the
entry for `ip` unconditionally (idempotent). -/
def release (r : InFlightRegistry) (ip : String) : InFlightRegistry :=
  ⟨r.entries.filter (fun e => !(e.1 = ip))⟩

/-- Modelled from the spec: the observable registry events of one relint
request — an admitted request (its `try_acquire` returned `true`), a
rejected one (`try_acquire` returned `false`, the client gets 429), and the
completion of an admitted job (its subprocess terminated, the entry is
released). -/
inductive RelintEvent where
  | admitted (ip tool : String)
  | rejected (ip tool : String)
  | completed (ip : String)
  deriving DecidableEq, Repr

/-- Modelled from the spec: one atomic registry transition.  `none` means
the event is impossible in the given state (an `admitted` event whose acquire would
fail, or a `rejected` event whose acquire would succeed), so the valid traces are
exactly the interleavings the lock-serialized registry can produce. -/
def regStep (r : InFlightRegistry) : RelintEvent → Option InFlightRegistry
  | .admitted ip tool =>
    if (try_acquire r ip tool).1 then some (try_acquire r ip tool).2 else none
  | .rejected ip tool =>
    if (try_acquire r ip tool).1 then none else some r
  | .completed ip => some (release r ip)

/-- Modelled from the spec: running a whole event trace from a registry
state. -/
def regRun (r : InFlightRegistry) : List RelintEvent → Option InFlightRegistry
  | [] => some r
  | e :: es =>
    match regStep r e with
    | none => none
    | some r' => regRun r' es

/-- A concrete stored row used by the end-to-end pagination scenario: its
level 5 (`ReportHigh`) lies in the default severity range and its code
matches the default `%%` pattern, so it matches the filterless query. -/
def sampleRow : DatabaseEntry :=
  { time := 0, tool := "tool1", code := "URL_INVALID", location := "loc"
    text := "txt", level := 5 }

/-- A store of 150 rows matching the filterless query. -/
def store150 : List DatabaseEntry :=
  List.replicate 150 sampleRow

/-- A stored row whose level is the `ReportCritical` wire value 8. -/
def criticalRow : DatabaseEntry :=
  { time := 0, tool := "tool1", code := "URL_INVALID", location := "loc"
    text := "txt", level := 8 }

/-- A stored row whose text embeds a plain http URL. -/
def linkRow : DatabaseEntry :=
  { time := 0, tool := "tool", code := "CODE", location := ""
    text := "see http://example.com/x for details", level := 5 }

/-- C6 -- Converting a severity wire-integer to the `Severity` enum and back
yields the original integer for every defined wire value, and the conversion
from an arbitrary integer is total, mapping every undefined integer to the
`Error` fallback. -/
theorem severity_wire_roundtrip :
    (∀ v : Int, v ∈ definedWireValues → Severity.toInt (Severity.fromInt v) = v) ∧
    (∀ v : Int, v ∉ definedWireValues → Severity.fromInt v = .Error) := by
  constructor
  · intro v hv
    simp only [definedWireValues, List.mem_cons, List.not_mem_nil, or_false] at hv
    rcases hv with rfl | rfl | rfl | rfl | rfl | rfl <;> rfl
  · intro v hv
    simp only [definedWireValues, List.mem_cons, List.not_mem_nil, or_false, not_or] at hv
    obtain ⟨h1, h2, h8, h5, h6, h7⟩ := hv
    simp [Severity.fromInt, h2, h8, h5, h6, h7]

/-- Witness for C6 at the concrete wire values 8 (defined) and 3
(undefined). -/
theorem severity_wire_roundtrip_witness :
    Severity.toInt (Severity.fromInt 8) = 8 ∧ Severity.fromInt 3 = .Error :=
  ⟨severity_wire_roundtrip.1 8 (by decide), severity_wire_roundtrip.2 3 (by decide)⟩

/-- C2 -- (code/spec divergence) With the severity parameter absent the
queries use the range `(1, 7)`, but the `ReportCritical` wire value is 8,
so a stored `ReportCritical` row is excluded both from the fetched page and
from the count of the filterless search. -/
theorem default_severity_range_drops_critical :
    Severity.toInt .ReportCritical = 8 ∧
    (8 : Int) ∈ definedWireValues ∧
    severityRange none = (1, 7) ∧
    criticalRow.level = 8 ∧
    get_messages_paginated [criticalRow] 0 none "%%" = [] ∧
    count_messages_paginated [criticalRow] none "%%" = 0 := by
  refine ⟨rfl, by decide, rfl, rfl, rfl, rfl⟩

/-- The `next` cursor of `serve_search_api`, extracted as an equation. -/
theorem serve_search_api_next (db : List DatabaseEntry) (query : Option String)
    (pageParam : Option Int) (severity : Option Severity) (codeParam : Option String) :
    (serve_search_api db query pageParam severity codeParam).next =
      (if (pageParam.getD 0) * 100 + 100 <
          (serve_search_api db query pageParam severity codeParam).count then
        some ("?page=" ++ toString ((pageParam.getD 0) + 1))
      else none) :=
  rfl

/-- The `previous` cursor of `serve_search_api`, extracted as an equation. -/
theorem serve_search_api_previous (db : List DatabaseEntry) (query : Option String)
    (pageParam : Option Int) (severity : Option Severity) (codeParam : Option String) :
    (serve_search_api db query pageParam severity codeParam).previous =
      (if (pageParam.getD 0) > 0 then some ("?page=" ++ toString ((pageParam.getD 0) - 1))
      else none) :=
  rfl

/-- C4 -- For every search response with `page ≥ 0` (and the fixed
`page_size = 100`), `next` is present iff `(page + 1) * 100 < count` and
`previous` is present iff `page > 0`; and the 150-row store yields
`page = 0 → 100 results, next = "?page=1", previous = null` and
`page = 1 → 50 results, next = null, previous = "?page=0"`. -/
theorem search_pagination_cursors :
    (∀ (db : List DatabaseEntry) (query : Option String) (severity : Option Severity)
        (codeParam : Option String) (page : Int), 0 ≤ page →
      ((serve_search_api db query (some page) severity codeParam).next.isSome ↔
        (page + 1) * 100 < (serve_search_api db query (some page) severity codeParam).count) ∧
      ((serve_search_api db query (some page) severity codeParam).previous.isSome ↔
        0 < page)) ∧
    ((serve_search_api store150 none (some 0) none none).results.length = 100 ∧
      (serve_search_api store150 none (some 0) none none).next = some "?page=1" ∧
      (serve_search_api store150 none (some 0) none none).previous = none) ∧
    ((serve_search_api store150 none (some 1) none none).results.length = 50 ∧
      (serve_search_api store150 none (some 1) none none).next = none ∧
      (serve_search_api store150 none (some 1) none none).previous = some "?page=0") := by
  have hfilter : store150.filter (rowMatches none "%%") = store150 :=
    List.filter_eq_self.mpr fun a ha => by
      rw [List.eq_of_mem_replicate ha]; decide
  have hcount : count_messages_paginated store150 none "%%" = 150 := by
    rw [count_messages_paginated, hfilter]; rfl
  refine ⟨?_, ⟨?_, ?_, ?_⟩, ⟨?_, ?_, ?_⟩⟩
  · intro db query severity codeParam page _
    have harith : (page + 1) * 100 = page * 100 + 100 := by ring
    constructor
    · rw [serve_search_api_next]
      simp only [Option.getD_some]
      rw [harith]
      split <;> simp [*]
    · rw [serve_search_api_previous]
      simp only [Option.getD_some]
      split <;> simp [*]
  · show (get_messages_paginated store150 0 none "%%").length = 100
    rw [get_messages_paginated, hfilter]
    simp [store150]
  · rw [serve_search_api_next]
    have h0 : (serve_search_api store150 none (some 0) none none).count = 150 := hcount
    rw [h0]
    decide
  · rw [serve_search_api_previous]
    decide
  · show (get_messages_paginated store150 1 none "%%").length = 50
    rw [get_messages_paginated, hfilter]
    simp [store150]
  · rw [serve_search_api_next]
    have h1 : (serve_search_api store150 none (some 1) none none).count = 150 := hcount
    rw [h1]
    decide
  · rw [serve_search_api_previous]
    decide

/-- Witness for C4: the cursor equivalences applied at `page = 3` over the
empty store (previous present) and at `page = 0` (next absent since the
count is 0). -/
theorem search_pagination_cursors_witness :
    (serve_search_api [] none (some 3) none none).previous.isSome = true :=
  (search_pagination_cursors.1 [] none none none 3 (by norm_num)).2.mpr (by norm_num)

/-- C5 -- After trimming, `relint_api` accepts (and hands to the spawned
command) every non-empty tool identifier all of whose characters are in
`[A-Za-z0-9_.-]` and which does not contain the reserved `--lint-all`
substring, and it rejects — returning before any job execution — every
input whose trimmed form contains any character outside that class. -/
theorem relint_validator_charset (raw : String) :
    (rustTrim raw ≠ "" → (rustTrim raw).toList.all validChar = true →
      ¬ (lintAllFlag.toList <:+: (rustTrim raw).toList) →
      relint_validate raw = .spawn ["lint_from_server.sh", rustTrim raw, "--no-color", "--exact"]) ∧
    (∀ c, c ∈ (rustTrim raw).toList → validChar c = false →
      relint_validate raw = .validationError) := by
  constructor
  · intro _ hall hNoFlag
    rw [relint_validate]
    rw [show passesRelintRegex (rustTrim raw) = true from hall]
    simp only [Bool.not_true, Bool.false_eq_true, if_false]
    rw [if_neg hNoFlag]
  · intro c hc hbad
    have hfail : passesRelintRegex (rustTrim raw) = false := by
      rw [passesRelintRegex, List.all_eq_false]
      exact ⟨c, hc, by simp [hbad]⟩
    rw [relint_validate, hfail]
    rfl

/-- Witness for C5: the validator accepts `" my.tool-1 "` (trimmed) and
rejects `"a$b"`. -/
theorem relint_validator_charset_witness :
    relint_validate " my.tool-1 " =
      .spawn ["lint_from_server.sh", "my.tool-1", "--no-color", "--exact"] ∧
    relint_validate "a$b" = .validationError := by
  constructor
  · have h := (relint_validator_charset " my.tool-1 ").1 (by decide) (by decide) (by decide)
    rw [h]
    decide
  · exact (relint_validator_charset "a$b").2 '$' (by decide) (by decide)

/-- C9 -- The relint validator accepts the empty tool identifier: for any
input whose trimmed form is empty, the `*`-quantified anchored regex and
the `--lint-all` substring check both pass, so the handler proceeds to
spawn the analyzer script with an empty positional argument. -/
theorem relint_accepts_empty (raw : String) (h : rustTrim raw = "") :
    relint_validate raw = .spawn ["lint_from_server.sh", "", "--no-color", "--exact"] := by
  rw [relint_validate, h]
  decide

/-- Witness for C9 at the all-whitespace input `"  "`. -/
theorem relint_accepts_empty_witness :
    relint_validate "  " = .spawn ["lint_from_server.sh", "", "--no-color", "--exact"] :=
  relint_accepts_empty "  " (by decide)

/-- C3 counterexample -- A subprocess exit with the non-reserved non-zero
status 2 yields HTTP 200 with the captured output, not the claimed 500. -/
theorem json_api_other_exit_is_200 :
    json_api (.exited 2 "diag") = some (200, "diag") ∧ (200 : Nat) ≠ 500 := by
  constructor
  · rfl
  · decide

/-- C3 (amended) -- The exit-status classification of the JSON lint
endpoint: exit code 1 yields 500 with the fixed diagnostic body, exit code
254 yields 400 with the captured output, every other exit code (zero or
non-zero) yields 200 with the captured output, and a failure to spawn — or
a termination by signal — panics instead of producing any HTTP response. -/
theorem json_api_classification (c : Int) (out : String) :
    json_api (.exited 1 out) =
      some (500, "\"error\": \"could not get data from linter\"") ∧
    json_api (.exited 254 out) = some (400, out) ∧
    (c ≠ 1 → c ≠ 254 → json_api (.exited c out) = some (200, out)) ∧
    json_api .spawnFailure = none ∧
    json_api .signalled = none := by
  refine ⟨rfl, by norm_num [json_api], ?_, rfl, rfl⟩
  intro h1 h254
  simp [json_api, h1, h254]

/-- Witness for C3 (amended) at exit code 7. -/
theorem json_api_classification_witness :
    json_api (.exited 7 "output") = some (200, "output") :=
  (json_api_classification 7 "output").2.2.1 (by norm_num) (by norm_num)

/-- Helper for C1: a successful acquire requires both busy checks to be
false and pushes the new entry. -/
theorem try_acquire_free (r : InFlightRegistry) (ip tool : String)
    (hip : ipBusy r ip = false) (htool : toolBusy r tool = false) :
    try_acquire r ip tool = (true, ⟨(ip, tool) :: r.entries⟩) := by
  rw [try_acquire, hip, htool]
  rfl

/-- Helper for C1: an acquire against a registry whose tool is already in
flight is rejected. -/
theorem try_acquire_tool_busy (r : InFlightRegistry) (ip tool : String)
    (htool : toolBusy r tool = true) :
    (try_acquire r ip tool).1 = false := by
  rw [try_acquire, htool]
  simp

/-- Helper for C1: releasing the IP that heads the registry restores the
remaining entries when that IP holds no other entry. -/
theorem release_cons_self (entries : List (String × String)) (ip tool : String)
    (h : entries.any (fun e => e.1 = ip) = false) :
    release ⟨(ip, tool) :: entries⟩ ip = ⟨entries⟩ := by
  rw [release]
  congr 1
  rw [List.filter_cons]
  have hh : (!decide ((ip, tool).1 = ip)) = false := by simp
  rw [hh]
  simp only [Bool.false_eq_true, if_false]
  refine List.filter_eq_self.mpr fun en hen => ?_
  have := List.any_eq_false.mp h en hen
  simpa using this

/-- Helper for C1: one registry step preserves distinctness of the
in-flight IPs and of the in-flight tools. -/
theorem regStep_preserves_nodup (r r' : InFlightRegistry) (e : RelintEvent)
    (h : regStep r e = some r')
    (hfst : (r.entries.map Prod.fst).Nodup) (hsnd : (r.entries.map Prod.snd).Nodup) :
    (r'.entries.map Prod.fst).Nodup ∧ (r'.entries.map Prod.snd).Nodup := by
  cases e with
  | admitted ip tool =>
    rw [regStep] at h
    split at h
    · next hacq =>
      rw [try_acquire] at hacq h
      by_cases hbusy : (ipBusy r ip || toolBusy r tool) = true
      · rw [if_pos hbusy] at hacq
        exact absurd hacq (by simp)
      · rw [if_neg hbusy] at h
        simp only [Bool.or_eq_true, not_or, Bool.not_eq_true] at hbusy
        obtain ⟨hips, htools⟩ := hbusy
        rw [ipBusy] at hips
        rw [toolBusy] at htools
        simp only [Option.some_inj] at h
        subst h
        simp only [List.map_cons]
        constructor
        · rw [List.nodup_cons]
          refine ⟨?_, hfst⟩
          intro hmem
          obtain ⟨en, hen, heq⟩ := List.mem_map.mp hmem
          have := List.any_eq_false.mp hips en hen
          simp [heq] at this
        · rw [List.nodup_cons]
          refine ⟨?_, hsnd⟩
          intro hmem
          obtain ⟨en, hen, heq⟩ := List.mem_map.mp hmem
          have := List.any_eq_false.mp htools en hen
          simp [heq] at this
    · exact absurd h (by simp)
  | rejected ip tool =>
    rw [regStep] at h
    split at h
    · exact absurd h (by simp)
    · simp only [Option.some_inj] at h
      subst h
      exact ⟨hfst, hsnd⟩
  | completed ip =>
    rw [regStep, release] at h
    simp only [Option.some_inj] at h
    subst h
    have hsub := (List.filter_sublist r.entries (p := fun e => !(e.1 = ip)))
    exact ⟨(hsub.map Prod.fst).nodup hfst, (hsub.map Prod.snd).nodup hsnd⟩

/-- Helper for C1: every state reachable by a valid trace keeps the
in-flight IPs and tools distinct. -/
theorem regRun_preserves_nodup (events : List RelintEvent) :
    ∀ (r r' : InFlightRegistry), regRun r events = some r' →
      (r.entries.map Prod.fst).Nodup → (r.entries.map Prod.snd).Nodup →
      (r'.entries.map Prod.fst).Nodup ∧ (r'.entries.map Prod.snd).Nodup := by
  induction events with
  | nil =>
    intro r r' h hf hs
    rw [regRun] at h
    simp only [Option.some_inj] at h
    subst h
    exact ⟨hf, hs⟩
  | cons e es ih =>
    intro r r' h hf hs
    rw [regRun] at h
    cases hstep : regStep r e with
    | none => rw [hstep] at h; exact absurd h (by simp)
    | some rmid =>
      rw [hstep] at h
      obtain ⟨hf', hs'⟩ := regStep_preserves_nodup r rmid e hstep hf hs
      exact ih rmid r' h hf' hs'

/-- C1 -- (spec-modelled In-Flight Registry) Two concurrent relint requests
for the same tool from different source IPs serialize through the registry
lock; in whichever order their acquires run, the first is admitted and the
second is rejected with 429, and once the admitted job completes (its entry
is released) a new request for that tool is admitted again.  Moreover along
every valid event trace from the empty registry the in-flight entries have
pairwise-distinct IPs and pairwise-distinct tools: no two concurrent jobs
share an IP and no two concurrent jobs target the same tool, regardless of
arrival order. -/
theorem relint_registry_exclusion :
    (∀ (r : InFlightRegistry) (ip1 ip2 tool : String), ip1 ≠ ip2 →
      ipBusy r ip1 = false → ipBusy r ip2 = false → toolBusy r tool = false →
      (try_acquire r ip1 tool).1 = true ∧
      (try_acquire (try_acquire r ip1 tool).2 ip2 tool).1 = false ∧
      (try_acquire (release (try_acquire r ip1 tool).2 ip1) ip2 tool).1 = true) ∧
    (∀ (events : List RelintEvent) (r' : InFlightRegistry),
      regRun ⟨[]⟩ events = some r' →
      (r'.entries.map Prod.fst).Nodup ∧ (r'.entries.map Prod.snd).Nodup) := by
  constructor
  · intro r ip1 ip2 tool _ hip1 hip2 htool
    have hacq := try_acquire_free r ip1 tool hip1 htool
    refine ⟨by rw [hacq], ?_, ?_⟩
    · rw [hacq]
      refine try_acquire_tool_busy _ ip2 tool ?_
      rw [toolBusy]
      simp
    · rw [hacq]
      rw [show (true, (⟨(ip1, tool) :: r.entries⟩ : InFlightRegistry)).2 =
          (⟨(ip1, tool) :: r.entries⟩ : InFlightRegistry) from rfl]
      rw [release_cons_self r.entries ip1 tool (by rw [ipBusy] at hip1; exact hip1)]
      rw [try_acquire_free ⟨r.entries⟩ ip2 tool
        (by rw [ipBusy] at hip2 ⊢; exact hip2)
        (by rw [toolBusy] at htool ⊢; exact htool)]
  · intro events r' h
    exact regRun_preserves_nodup events ⟨[]⟩ r' h (by simp) (by simp)

/-- Witness for C1: the registry scenario at two concrete IPs and one tool
starting from the empty registry, and the distinctness invariant at the
concrete one-admission trace. -/
theorem relint_registry_exclusion_witness :
    ((try_acquire ⟨[]⟩ "10.0.0.1" "toolA").1 = true ∧
      (try_acquire (try_acquire ⟨[]⟩ "10.0.0.1" "toolA").2 "10.0.0.2" "toolA").1 = false ∧
      (try_acquire (release (try_acquire ⟨[]⟩ "10.0.0.1" "toolA").2 "10.0.0.1")
        "10.0.0.2" "toolA").1 = true) ∧
    (((⟨[("10.0.0.1", "toolA")]⟩ : InFlightRegistry).entries.map Prod.fst).Nodup ∧
      ((⟨[("10.0.0.1", "toolA")]⟩ : InFlightRegistry).entries.map Prod.snd).Nodup) :=
  ⟨relint_registry_exclusion.1 ⟨[]⟩ "10.0.0.1" "10.0.0.2" "toolA" (by decide) rfl rfl rfl,
   relint_registry_exclusion.2 [.admitted "10.0.0.1" "toolA"] ⟨[("10.0.0.1", "toolA")]⟩
     (by decide)⟩


/-- Helper for C7: the empty-pattern equation of the LIKE matcher. -/
theorem likeMatchL_nil_eq (s : List Char) : likeMatchL [] s = s.isEmpty := rfl

/-- Helper for C7: the `%`-head equation of the LIKE matcher. -/
theorem likeMatchL_percent_eq (ps s : List Char) :
    likeMatchL ('%' :: ps) s = anySuffix (likeMatchL ps) s := by
  cases ps <;> rfl

/-- Helper for C7: the literal-head equation of the LIKE matcher. -/
theorem likeMatchL_plain_cons (c : Char) (ps s : List Char)
    (hc1 : c ≠ '%') (hc2 : c ≠ '_') (hc3 : c ≠ '\\') :
    likeMatchL (c :: ps) s = likeLit c (likeMatchL ps) s := by
  cases ps <;> simp only [likeMatchL, if_neg hc1, if_neg hc2, if_neg hc3]

/-- Helper for C7: a suffix scan succeeds exactly when some suffix
satisfies the continuation. -/
theorem anySuffix_eq_true_iff (f : List Char → Bool) :
    ∀ s : List Char, anySuffix f s = true ↔ ∃ t, t <:+ s ∧ f t = true := by
  intro s
  induction s with
  | nil =>
    rw [anySuffix]
    constructor
    · intro h
      exact ⟨[], by simp, h⟩
    · rintro ⟨t, ht, hf⟩
      simp only [List.suffix_nil] at ht
      subst ht
      exact hf
  | cons c s' ih =>
    rw [anySuffix]
    simp only [Bool.or_eq_true, ih, List.suffix_cons_iff]
    constructor
    · rintro (h | ⟨t, ht, hf⟩)
      · exact ⟨c :: s', Or.inl rfl, h⟩
      · exact ⟨t, Or.inr ht, hf⟩
    · rintro ⟨t, hor, hf⟩
      rcases hor with rfl | ht
      · exact Or.inl hf
      · exact Or.inr ⟨t, ht, hf⟩

/-- Helper for C7: a wildcard-free literal followed by `%` matches exactly
the subjects it is a prefix of. -/
theorem likeMatch_lit_percent :
    ∀ lit : List Char, (∀ c ∈ lit, c ≠ '%' ∧ c ≠ '_' ∧ c ≠ '\\') →
      ∀ s : List Char, likeMatchL (lit ++ ['%']) s = true ↔ lit <+: s := by
  intro lit
  induction lit with
  | nil =>
    intro _ s
    simp only [List.nil_append]
    constructor
    · intro _
      exact ⟨s, rfl⟩
    · intro _
      rw [likeMatchL_percent_eq]
      exact (anySuffix_eq_true_iff (likeMatchL []) s).mpr ⟨[], by simp, rfl⟩
  | cons c lit' ih =>
    intro hlit s
    obtain ⟨hc1, hc2, hc3⟩ := hlit c (List.mem_cons_self c lit')
    have hlit' : ∀ x ∈ lit', x ≠ '%' ∧ x ≠ '_' ∧ x ≠ '\\' :=
      fun x hx => hlit x (List.mem_cons_of_mem c hx)
    rw [List.cons_append, likeMatchL_plain_cons c (lit' ++ ['%']) s hc1 hc2 hc3]
    cases s with
    | nil =>
      rw [likeLit]
      simp
    | cons d s' =>
      rw [likeLit, List.cons_prefix_cons]
      simp [ih hlit' s', Bool.and_eq_true, decide_eq_true_eq]

/-- Helper for C7: the `%lit%` pattern with a wildcard-free literal matches
exactly the subjects containing the literal as a contiguous substring. -/
theorem likeMatch_wrapped_iff (lit : List Char)
    (hlit : ∀ c ∈ lit, c ≠ '%' ∧ c ≠ '_' ∧ c ≠ '\\') (s : List Char) :
    likeMatchL ('%' :: (lit ++ ['%'])) s = true ↔ lit <:+: s := by
  rw [likeMatchL_percent_eq, anySuffix_eq_true_iff]
  simp only [likeMatch_lit_percent lit hlit]
  rw [List.infix_iff_prefix_suffix]
  constructor
  · rintro ⟨t, ht, hp⟩
    exact ⟨t, hp, ht⟩
  · rintro ⟨t, hp, ht⟩
    exact ⟨t, ht, hp⟩

/-- Helper for C7: lower-casing never turns an ordinary character into a
LIKE metacharacter (`%`, `_`) or the escape character. -/
theorem toLower_keeps_plain (c : Char) (h1 : c ≠ '%') (h2 : c ≠ '_') (h3 : c ≠ '\\') :
    c.toLower ≠ '%' ∧ c.toLower ≠ '_' ∧ c.toLower ≠ '\\' := by
  have key : ∀ m : Nat, 97 ≤ m → m ≤ 122 →
      Char.ofNat m ≠ '%' ∧ Char.ofNat m ≠ '_' ∧ Char.ofNat m ≠ '\\' := by
    intro m hm1 hm2
    interval_cases m <;> exact (by decide)
  simp only [Char.toLower]
  by_cases h : c.toNat ≥ 65 ∧ c.toNat ≤ 90
  · rw [if_pos h]
    exact key _ (by omega) (by omega)
  · rw [if_neg h]
    exact ⟨h1, h2, h3⟩

/-- Helper for C7: the HTML text escaper keeps a string without `&`, `<`,
`>` unchanged. -/
theorem encodeTextL_eq_self (q : List Char)
    (h : ∀ c ∈ q, c ≠ '&' ∧ c ≠ '<' ∧ c ≠ '>') : encodeTextL q = q := by
  induction q with
  | nil => rfl
  | cons c q' ih =>
    obtain ⟨h1, h2, h3⟩ := h c (List.mem_cons_self c q')
    rw [encodeTextL, List.map_cons, List.flatten_cons]
    rw [encodeTextChar, if_neg h1, if_neg h2, if_neg h3]
    rw [List.singleton_append]
    rw [show (List.map encodeTextChar q').flatten = encodeTextL q' from rfl]
    rw [ih (fun x hx => h x (List.mem_cons_of_mem c hx))]

/-- C7 counterexample -- The HTML escaping does not neutralize LIKE
wildcards: the query `"%"` matches a row although neither its tool nor its
code contains the character `%` literally. -/
theorem search_wildcard_not_neutralized :
    searchRowMatches "%" ⟨0, "abc", "CODE", "", "", 5⟩ = true ∧
    ¬ ('%' ∈ "abc".toList) ∧ ¬ ('%' ∈ "CODE".toList) := by
  decide

/-- C7 (amended) -- The free-text query is HTML-escaped (only `&`, `<`, `>`
are rewritten; the LIKE wildcards `%` and `_` pass through unescaped and
keep their wildcard meaning) and wrapped with `%...%`; consequently, for a
query free of `%`, `_`, the LIKE escape character and the HTML-escaped
characters, a row matches exactly when the query occurs case-insensitively
as a contiguous substring of its tool or of its code. -/
theorem search_query_substring (q : String) (e : DatabaseEntry)
    (hq : ∀ c ∈ q.toList,
      c ≠ '%' ∧ c ≠ '_' ∧ c ≠ '\\' ∧ c ≠ '&' ∧ c ≠ '<' ∧ c ≠ '>') :
    searchRowMatches q e = true ↔
      (q.toList.map Char.toLower <:+: e.tool.toList.map Char.toLower ∨
       q.toList.map Char.toLower <:+: e.code.toList.map Char.toLower) := by
  have henc : encodeTextL q.toList = q.toList :=
    encodeTextL_eq_self q.toList fun c hc =>
      ⟨(hq c hc).2.2.2.1, (hq c hc).2.2.2.2.1, (hq c hc).2.2.2.2.2⟩
  have hplain : ∀ c ∈ q.toList.map Char.toLower, c ≠ '%' ∧ c ≠ '_' ∧ c ≠ '\\' := by
    intro c hc
    obtain ⟨d, hd, rfl⟩ := List.mem_map.mp hc
    exact toLower_keeps_plain d (hq d hd).1 (hq d hd).2.1 (hq d hd).2.2.1
  have hpat : ∀ subj : List Char,
      ilikeL (searchPatternL q.toList) subj = true ↔
        q.toList.map Char.toLower <:+: subj.map Char.toLower := by
    intro subj
    rw [ilikeL, searchPatternL, henc]
    rw [List.map_cons, List.map_append]
    rw [show Char.toLower '%' = '%' from by decide]
    rw [show List.map Char.toLower ['%'] = ['%'] from by decide]
    exact likeMatch_wrapped_iff (q.toList.map Char.toLower) hplain (subj.map Char.toLower)
  rw [searchRowMatches, Bool.or_eq_true, hpat e.tool.toList, hpat e.code.toList]

/-- Witness for C7 (amended): the query `"abc"` matches a row whose tool
contains `ABC`. -/
theorem search_query_substring_witness :
    searchRowMatches "abc" ⟨0, "xABCy", "zz", "", "", 5⟩ = true :=
  (search_query_substring "abc" ⟨0, "xABCy", "zz", "", "", 5⟩ (by decide)).mpr
    (Or.inl (by decide))

set_option maxRecDepth 4000 in
/-- C8 counterexample -- The rendered text of the stored message
`"see http://example.com/x for details"` does not contain the claimed
anchor string `<a href="http://example.com/x" rel="nofollow">...` , because
the source writes a space between `rel="nofollow"` and `>`. -/
theorem autolink_claimed_anchor_absent :
    ¬ ("<a href=\"http://example.com/x\" rel=\"nofollow\">http://example.com/x</a>".toList <:+:
      (messageFromEntry linkRow).text.toList) := by
  decide

/-- C8 (amended) -- The rendered text is exactly the input with the URL
wrapped in an anchor carrying `rel="nofollow"` and a space before the
closing bracket of the opening tag, and it therefore contains the anchor
string with that space. -/
theorem autolink_nofollow_anchor :
    (messageFromEntry linkRow).text =
      "see <a href=\"http://example.com/x\" rel=\"nofollow\" >http://example.com/x</a> for details" ∧
    "<a href=\"http://example.com/x\" rel=\"nofollow\" >http://example.com/x</a>".toList <:+:
      (messageFromEntry linkRow).text.toList := by
  constructor
  · rfl
  · decide

/-- Helper for C10: every CSV data line is non-empty. -/
theorem csvRow_length_pos (m : Message) : 1 ≤ (csvRow m).length := by
  rw [csvRow]
  simp only [String.length_append]
  rw [show ("\"\n" : String).length = 2 from rfl]
  omega

/-- Helper for C10: folding strings with append never shrinks the
accumulator. -/
theorem foldl_append_length (rs : List String) :
    ∀ a : String, a.length ≤ (rs.foldl (· ++ ·) a).length := by
  induction rs with
  | nil =>
    intro a
    simp [List.foldl]
  | cons r rs ih =>
    intro a
    rw [List.foldl_cons]
    calc a.length ≤ (a ++ r).length := by rw [String.length_append]; omega
      _ ≤ _ := ih (a ++ r)

/-- C10 -- The CSV download handler is partial on its matching-row set: it
panics (produces no response) exactly when zero messages match, so a
response consisting of only the CSV header line is never produced, and the
header-plus-rows body is returned exactly when at least one message
matches. -/
theorem download_requires_matching_rows (db : List DatabaseEntry) (q : Option String) :
    (download_api db q = none ↔ downloadMessages db q = []) ∧
    (downloadMessages db q ≠ [] →
      ∃ d, csvData (downloadMessages db q) = some d ∧
        download_api db q = some (csvHeader ++ d) ∧
        csvHeader ++ d ≠ csvHeader) := by
  cases hm : downloadMessages db q with
  | nil =>
    constructor
    · rw [download_api, hm]
      simp [csvData]
    · intro hne
      exact absurd rfl hne
  | cons m ms =>
    have hdata : csvData (m :: ms) = some ((ms.map csvRow).foldl (· ++ ·) (csvRow m)) := by
      rw [csvData, List.map_cons]
    constructor
    · rw [download_api, hm, hdata]
      constructor
      · intro h
        exact absurd h (by simp)
      · intro h
        exact absurd h (by simp)
    · intro _
      refine ⟨(ms.map csvRow).foldl (· ++ ·) (csvRow m), hdata, ?_, ?_⟩
      · rw [download_api, hm, hdata]
        rfl
      · intro hcontra
        have hlen := congrArg String.length hcontra
        rw [String.length_append] at hlen
        have h1 : 1 ≤ (csvRow m).length := csvRow_length_pos m
        have h2 : (csvRow m).length ≤ ((ms.map csvRow).foldl (· ++ ·) (csvRow m)).length :=
          foldl_append_length (ms.map csvRow) (csvRow m)
        omega

/-- Witness for C10: the handler panics on the empty store and responds on
a one-row store. -/
theorem download_requires_matching_rows_witness :
    download_api [] none = none ∧ download_api [sampleRow] none ≠ none := by
  constructor
  · exact (download_requires_matching_rows [] none).1.mpr rfl
  · obtain ⟨d, _, hd, _⟩ := (download_requires_matching_rows [sampleRow] none).2 (by
      rw [show downloadMessages [sampleRow] none = [messageFromEntry sampleRow] from rfl]
      exact List.cons_ne_nil _ _)
    rw [hd]
    simp
